import Mathlib

/-!
Shallow embedding of the numerical core of `src/3dendzsinke.cpp`:
the dual-number automatic-differentiation engine (`Dnum`), the
parametric-surface evaluator (`ParamSurface`), the procedural terrain
(`Noise`), and the tethered rigid-body integrator (`Body::Animate`).
Machine `float` arithmetic is modelled by exact real arithmetic.
-/

noncomputable section

/-- 2-component vector, as `vec2` of the framework used by the source. -/
@[ext] structure vec2 where
  x : ℝ
  y : ℝ

/-- 3-component vector, as `vec3` of the framework used by the source. -/
@[ext] structure vec3 where
  x : ℝ
  y : ℝ
  z : ℝ

instance : Add vec2 := ⟨fun a b => ⟨a.x + b.x, a.y + b.y⟩⟩
instance : Sub vec2 := ⟨fun a b => ⟨a.x - b.x, a.y - b.y⟩⟩
instance : SMul ℝ vec2 := ⟨fun c v => ⟨c * v.x, c * v.y⟩⟩
instance : Zero vec2 := ⟨⟨0, 0⟩⟩

/-- Componentwise division of a `vec2` by a scalar. -/
def vec2.divs (v : vec2) (c : ℝ) : vec2 := ⟨v.x / c, v.y / c⟩

instance : Add vec3 := ⟨fun a b => ⟨a.x + b.x, a.y + b.y, a.z + b.z⟩⟩
instance : Sub vec3 := ⟨fun a b => ⟨a.x - b.x, a.y - b.y, a.z - b.z⟩⟩
instance : SMul ℝ vec3 := ⟨fun c v => ⟨c * v.x, c * v.y, c * v.z⟩⟩
instance : Zero vec3 := ⟨⟨0, 0, 0⟩⟩

/-- Componentwise division of a `vec3` by a scalar. -/
def vec3.divs (v : vec3) (c : ℝ) : vec3 := ⟨v.x / c, v.y / c, v.z / c⟩

/-- Dot product of the framework's `vec3`. -/
def dot (a b : vec3) : ℝ := a.x * b.x + a.y * b.y + a.z * b.z

/-- Cross product of the framework's `vec3`. -/
def cross (a b : vec3) : vec3 :=
  ⟨a.y * b.z - a.z * b.y, a.z * b.x - a.x * b.z, a.x * b.y - a.y * b.x⟩

/-- Euclidean length of the framework's `vec3`. -/
def vlength (v : vec3) : ℝ := Real.sqrt (dot v v)

/-- `Dnum<vec2>` of the source (`typedef Dnum<vec2> Dnum2`): a function value
together with its partial derivatives with respect to two parameters. -/
@[ext] structure Dnum2 where
  f : ℝ
  d : vec2

/-- The source's `Dnum(float f0 = 0, T d0 = T(0))` constructor applied to a
plain scalar: a constant dual number with zero derivative. -/
def dconst (a : ℝ) : Dnum2 := ⟨a, 0⟩

instance : Add Dnum2 := ⟨fun a r => ⟨a.f + r.f, a.d + r.d⟩⟩
instance : Sub Dnum2 := ⟨fun a r => ⟨a.f - r.f, a.d - r.d⟩⟩
instance : Mul Dnum2 := ⟨fun a r => ⟨a.f * r.f, a.f • r.d + r.f • a.d⟩⟩
instance : Div Dnum2 :=
  ⟨fun a r => ⟨a.f / r.f, ((r.f • a.d - a.f • r.d).divs r.f).divs r.f⟩⟩

namespace Dnum2

/-- `Exp` of the source. -/
def Exp (g : Dnum2) : Dnum2 := ⟨Real.exp g.f, Real.exp g.f • g.d⟩

/-- `Sin` of the source. -/
def Sin (g : Dnum2) : Dnum2 := ⟨Real.sin g.f, Real.cos g.f • g.d⟩

/-- `Cos` of the source. -/
def Cos (g : Dnum2) : Dnum2 := ⟨Real.cos g.f, (-Real.sin g.f) • g.d⟩

/-- `Tan` of the source: `Sin(g) / Cos(g)`. -/
def Tan (g : Dnum2) : Dnum2 := Sin g / Cos g

/-- `Sinh` of the source. -/
def Sinh (g : Dnum2) : Dnum2 := ⟨Real.sinh g.f, Real.cosh g.f • g.d⟩

/-- `Cosh` of the source. -/
def Cosh (g : Dnum2) : Dnum2 := ⟨Real.cosh g.f, Real.sinh g.f • g.d⟩

/-- `Tanh` of the source: `Sinh(g) / Cosh(g)`. -/
def Tanh (g : Dnum2) : Dnum2 := Sinh g / Cosh g

/-- `Log` of the source. -/
def Log (g : Dnum2) : Dnum2 := ⟨Real.log g.f, g.d.divs g.f⟩

/-- `Pow` of the source, with a real exponent. -/
def Pow (g : Dnum2) (n : ℝ) : Dnum2 :=
  ⟨g.f ^ n, (n * g.f ^ (n - 1)) • g.d⟩

end Dnum2

/-- `ParamSurface::VertexData` of the source. -/
@[ext] structure VertexData where
  position : vec3
  normal : vec3
  texcoord : vec2

namespace ParamSurface

/-- `ParamSurface::GenVertexData` of the source: lifts `u` with derivative
`(1,0)` and `v` with derivative `(0,1)`, evaluates the surface, and returns
position, unnormalized cross-product normal, and texcoord.  The virtual
`eval` is passed as the function argument. -/
def GenVertexData (eval : Dnum2 → Dnum2 → Dnum2 × Dnum2 × Dnum2)
    (u v : ℝ) : VertexData :=
  let U : Dnum2 := ⟨u, ⟨1, 0⟩⟩
  let V : Dnum2 := ⟨v, ⟨0, 1⟩⟩
  let R := eval U V
  { position := ⟨R.1.f, R.2.1.f, R.2.2.f⟩,
    normal := cross ⟨R.1.d.x, R.2.1.d.x, R.2.2.d.x⟩ ⟨R.1.d.y, R.2.1.d.y, R.2.2.d.y⟩,
    texcoord := ⟨u, v⟩ }

/-- `ParamSurface::create` of the source: the vertex buffer built by the
double loop `for i in [0,N), for j in [0,M]`, pushing the sample at
`(j/M, i/N)` and then the sample at `(j/M, (i+1)/N)`. -/
def create (eval : Dnum2 → Dnum2 → Dnum2 × Dnum2 × Dnum2)
    (N M : ℕ) : List VertexData :=
  (List.range N).flatMap fun i =>
    (List.range (M + 1)).flatMap fun j =>
      [GenVertexData eval ((j : ℝ) / (M : ℝ)) ((i : ℝ) / (N : ℝ)),
       GenVertexData eval ((j : ℝ) / (M : ℝ)) (((i : ℝ) + 1) / (N : ℝ))]

end ParamSurface

/-- Amplitude table of `Noise::initA`: `A[0][0] = 0`, else `1/sqrt(i*i+j*j)`. -/
def Acoef (i j : ℕ) : ℝ :=
  if i = 0 ∧ j = 0 then 0 else 1 / Real.sqrt ((i : ℝ) * i + (j : ℝ) * j)

/-- Phase table of `Noise::initA`: `B[0][0]` keeps its default value `0`, the
other entries hold the value drawn from the random source at construction
time, given here as the table `B`. -/
def Bcoef (B : ℕ → ℕ → ℝ) (i j : ℕ) : ℝ :=
  if i = 0 ∧ j = 0 then 0 else B i j

namespace Noise

/-- `Noise::eval` of the source: `X = U-0.5`, `Z = V-0.5`,
`Y = Σ_{i<3, j<3} Cos((X*i + Z*j + B[i][j]) * π * 2) * A[i][j]`,
all through dual-number arithmetic. -/
def eval (B : ℕ → ℕ → ℝ) (U V : Dnum2) : Dnum2 × Dnum2 × Dnum2 :=
  let X := U - dconst 0.5
  let Z := V - dconst 0.5
  let Y := (List.range 3).foldl (fun acc (i : ℕ) =>
    (List.range 3).foldl (fun acc2 (j : ℕ) =>
      acc2 + Dnum2.Cos ((X * dconst (i : ℝ) + Z * dconst (j : ℝ) +
          dconst (Bcoef B i j)) * dconst Real.pi * dconst 2) *
        dconst (Acoef i j)) acc) (dconst 0)
  (X, Y, Z)

end Noise

/-- The state of the source's `Body` object: the `Body` members
(`m, g, v, ro, s, D, l0, w, kappa`), the inherited `Object` pose members
(`scale, translation, rotationAxis, rotationAngle`), and the cached model /
inverse-model transforms `M, Minv` represented as the point maps they apply. -/
@[ext] structure BodyState where
  m : ℝ
  g : vec3
  v : vec3
  ro : ℝ
  s : vec3
  D : ℝ
  l0 : ℝ
  w : vec3
  kappa : ℝ
  scale : vec3
  translation : vec3
  rotationAxis : vec3
  rotationAngle : ℝ
  M : vec3 → vec3
  Minv : vec3 → vec3

/-- Modelled from the spec: `framework.h` (not under `src/`) supplies
`RotationMatrix(angle, axis)`; the spec fixes rotation about a single fixed
axis, here given by Rodrigues' rotation formula. -/
def RotationApply (angle : ℝ) (axis v : vec3) : vec3 :=
  Real.cos angle • v + Real.sin angle • cross axis v +
    ((1 - Real.cos angle) * dot axis v) • axis

/-- Componentwise scaling, as `framework.h`'s `ScaleMatrix` applied to a
point. -/
def scaleVec (s v : vec3) : vec3 := ⟨s.x * v.x, s.y * v.y, s.z * v.z⟩

/-- Modelled from the spec: the model matrix
`M = ScaleMatrix(scale) * RotationMatrix(angle, axis) * TranslateMatrix(t)`
applied to a point (row-vector convention: scale, then rotate, then
translate), i.e. the spec's translate∘rotate∘scale pose. -/
def modelMap (st : BodyState) (p : vec3) : vec3 :=
  RotationApply st.rotationAngle st.rotationAxis (scaleVec st.scale p) +
    st.translation

/-- Modelled from the spec: the inverse model matrix
`Minv = TranslateMatrix(-t) * RotationMatrix(-angle, axis) *
ScaleMatrix(1/scale)` applied to a point. -/
def invModelMap (st : BodyState) (p : vec3) : vec3 :=
  scaleVec ⟨1 / st.scale.x, 1 / st.scale.y, 1 / st.scale.z⟩
    (RotationApply (-st.rotationAngle) st.rotationAxis (p - st.translation))

/-- The world-space tether attachment point of `Body::Animate`:
`vec4(0, -0.5, 0, 1) * M` with `M` the model matrix of the pose from before
the step. -/
def attachPoint (st : BodyState) : vec3 := modelMap st ⟨0, -0.5, 0⟩

/-- The spring force of `Body::Animate`: `K` stays the zero vector of its
`vec3 K;` declaration unless `length(s-l) > l0`, in which case
`K = D*(s-l)*(length(s-l) - l0)`. -/
def springK (st : BodyState) (l : vec3) : vec3 :=
  if vlength (st.s - l) > st.l0 then
    (st.D * (vlength (st.s - l) - st.l0)) • (st.s - l)
  else 0

/-- `Body::Animate` of the source, with the global `goon` flag passed in.
When `goon` is false the body returns immediately; otherwise it caches the
pre-step transforms, computes the attachment point `l` from the pre-step
pose, advances `translation` with the pre-step velocity, updates `v` through
linear momentum under gravity, spring and drag, updates `w` through angular
momentum under spring torque and angular drag, and advances
`rotationAngle` by the axis component of the new angular velocity. -/
def Animate (goon : Bool) (st : BodyState) (tstart tend : ℝ) : BodyState :=
  if goon then
    let l := attachPoint st
    let dt := tend - tstart
    let translation1 := st.translation + dt • st.v
    let K := springK st l
    let F := st.m • st.g + K - st.ro • st.v
    let p := st.m • st.v + dt • F
    let v1 := p.divs st.m
    let I := st.m * (st.scale.x * st.scale.x + st.scale.y * st.scale.y) / 12
    let tau := cross (l - translation1) K - st.kappa • st.w
    let L := I • st.w + dt • tau
    let w1 := (1 / I) • L
    { st with
      M := modelMap st, Minv := invModelMap st,
      translation := translation1, v := v1, w := w1,
      rotationAngle := st.rotationAngle - dot st.rotationAxis w1 * dt }
  else st

end

theorem vec2.add_def (a b : vec2) : a + b = ⟨a.x + b.x, a.y + b.y⟩ := rfl

theorem vec2.sub_def (a b : vec2) : a - b = ⟨a.x - b.x, a.y - b.y⟩ := rfl

theorem vec2.smul_def (c : ℝ) (v : vec2) : c • v = ⟨c * v.x, c * v.y⟩ := rfl

/-- C3: the four dual-number operators return the ordinary scalar arithmetic
result in the value component, and the sum, difference, product and quotient
rules in the derivative component; the quotient derivative equals
`(b.value • a.derivative - a.value • b.derivative) / b.value²` whenever
`b.value` is nonzero. -/
theorem dnum_field_ops (a b : Dnum2) :
    (a + b).f = a.f + b.f ∧ (a + b).d = a.d + b.d ∧
    (a - b).f = a.f - b.f ∧ (a - b).d = a.d - b.d ∧
    (a * b).f = a.f * b.f ∧ (a * b).d = a.f • b.d + b.f • a.d ∧
    (b.f ≠ 0 →
      (a / b).f = a.f / b.f ∧
      (a / b).d = (b.f • a.d - a.f • b.d).divs (b.f ^ 2)) := by
  refine ⟨rfl, rfl, rfl, rfl, rfl, rfl, fun hb => ⟨rfl, ?_⟩⟩
  show ((b.f • a.d - a.f • b.d).divs b.f).divs b.f = _
  ext <;> simp [vec2.divs, div_div, sq]

/-- Witness for `dnum_field_ops` at concrete operands with nonzero divisor
value. -/
theorem dnum_field_ops_check :
    (2 : ℝ) ≠ 0 ∧
    ((⟨1, ⟨2, 3⟩⟩ : Dnum2) / ⟨2, ⟨1, 1⟩⟩).f = 1 / 2 ∧
    ((⟨1, ⟨2, 3⟩⟩ : Dnum2) / ⟨2, ⟨1, 1⟩⟩).d =
      ((2 : ℝ) • (⟨2, 3⟩ : vec2) - (1 : ℝ) • ⟨1, 1⟩).divs ((2 : ℝ) ^ 2) := by
  have h := dnum_field_ops ⟨1, ⟨2, 3⟩⟩ ⟨2, ⟨1, 1⟩⟩
  have h2 : (2 : ℝ) ≠ 0 := by norm_num
  exact ⟨h2, (h.2.2.2.2.2.2 h2).1, (h.2.2.2.2.2.2 h2).2⟩

theorem Dnum2.div_def (a r : Dnum2) :
    a / r = ⟨a.f / r.f, ((r.f • a.d - a.f • r.d).divs r.f).divs r.f⟩ := rfl

/-- C4: each elementary function of the dual-number engine returns the outer
function's value at `g.f` and, by the chain rule, the standard derivative of
the outer function at `g.f` times `g.d`; in particular `Cos` has derivative
`-sin` and `Pow` has derivative `n * g.f ^ (n-1)`; `Tan` needs `cos g.f ≠ 0`
and `Log` needs `g.f ≠ 0`. -/
theorem dnum_elementary_chain_rule (g : Dnum2) (n : ℝ) :
    Dnum2.Exp g = ⟨Real.exp g.f, Real.exp g.f • g.d⟩ ∧
    Dnum2.Sin g = ⟨Real.sin g.f, Real.cos g.f • g.d⟩ ∧
    Dnum2.Cos g = ⟨Real.cos g.f, (-Real.sin g.f) • g.d⟩ ∧
    (Real.cos g.f ≠ 0 →
      Dnum2.Tan g = ⟨Real.tan g.f, (1 / Real.cos g.f ^ 2) • g.d⟩) ∧
    Dnum2.Sinh g = ⟨Real.sinh g.f, Real.cosh g.f • g.d⟩ ∧
    Dnum2.Cosh g = ⟨Real.cosh g.f, Real.sinh g.f • g.d⟩ ∧
    Dnum2.Tanh g = ⟨Real.tanh g.f, (1 / Real.cosh g.f ^ 2) • g.d⟩ ∧
    (g.f ≠ 0 → Dnum2.Log g = ⟨Real.log g.f, (1 / g.f) • g.d⟩) ∧
    Dnum2.Pow g n = ⟨g.f ^ n, (n * g.f ^ (n - 1)) • g.d⟩ := by
  have hp : Real.sin g.f ^ 2 + Real.cos g.f ^ 2 = 1 := Real.sin_sq_add_cos_sq g.f
  have hq : Real.cosh g.f ^ 2 - Real.sinh g.f ^ 2 = 1 := Real.cosh_sq_sub_sinh_sq g.f
  refine ⟨rfl, rfl, rfl, fun hc => ?_, rfl, rfl, ?_, fun hf => ?_, rfl⟩
  · ext
    · show Real.sin g.f / Real.cos g.f = Real.tan g.f
      rw [Real.tan_eq_sin_div_cos]
    · show (Real.cos g.f * (Real.cos g.f * g.d.x) -
          Real.sin g.f * (-Real.sin g.f * g.d.x)) / Real.cos g.f / Real.cos g.f =
          1 / Real.cos g.f ^ 2 * g.d.x
      rw [div_div, ← sq]
      rw [show Real.cos g.f * (Real.cos g.f * g.d.x) -
          Real.sin g.f * (-Real.sin g.f * g.d.x) = g.d.x by linear_combination g.d.x * hp]
      rw [one_div, inv_mul_eq_div]
    · show (Real.cos g.f * (Real.cos g.f * g.d.y) -
          Real.sin g.f * (-Real.sin g.f * g.d.y)) / Real.cos g.f / Real.cos g.f =
          1 / Real.cos g.f ^ 2 * g.d.y
      rw [div_div, ← sq]
      rw [show Real.cos g.f * (Real.cos g.f * g.d.y) -
          Real.sin g.f * (-Real.sin g.f * g.d.y) = g.d.y by linear_combination g.d.y * hp]
      rw [one_div, inv_mul_eq_div]
  · ext
    · show Real.sinh g.f / Real.cosh g.f = Real.tanh g.f
      rw [Real.tanh_eq_sinh_div_cosh]
    · show (Real.cosh g.f * (Real.cosh g.f * g.d.x) -
          Real.sinh g.f * (Real.sinh g.f * g.d.x)) / Real.cosh g.f / Real.cosh g.f =
          1 / Real.cosh g.f ^ 2 * g.d.x
      rw [div_div, ← sq]
      rw [show Real.cosh g.f * (Real.cosh g.f * g.d.x) -
          Real.sinh g.f * (Real.sinh g.f * g.d.x) = g.d.x by linear_combination g.d.x * hq]
      rw [one_div, inv_mul_eq_div]
    · show (Real.cosh g.f * (Real.cosh g.f * g.d.y) -
          Real.sinh g.f * (Real.sinh g.f * g.d.y)) / Real.cosh g.f / Real.cosh g.f =
          1 / Real.cosh g.f ^ 2 * g.d.y
      rw [div_div, ← sq]
      rw [show Real.cosh g.f * (Real.cosh g.f * g.d.y) -
          Real.sinh g.f * (Real.sinh g.f * g.d.y) = g.d.y by linear_combination g.d.y * hq]
      rw [one_div, inv_mul_eq_div]
  · ext
    · rfl
    · show g.d.x / g.f = 1 / g.f * g.d.x
      rw [one_div, inv_mul_eq_div]
    · show g.d.y / g.f = 1 / g.f * g.d.y
      rw [one_div, inv_mul_eq_div]

/-- Witness for `dnum_elementary_chain_rule` at `g = (1, (1,2))`, `n = 2`,
where `cos 1 ≠ 0` and `1 ≠ 0`. -/
theorem dnum_elementary_chain_rule_check :
    Real.cos 1 ≠ 0 ∧ (1 : ℝ) ≠ 0 ∧
    Dnum2.Tan ⟨1, ⟨1, 2⟩⟩ = ⟨Real.tan 1, (1 / Real.cos 1 ^ 2) • ⟨1, 2⟩⟩ ∧
    Dnum2.Log ⟨1, ⟨1, 2⟩⟩ = ⟨Real.log 1, (1 / (1 : ℝ)) • ⟨1, 2⟩⟩ := by
  have hπ := Real.pi_gt_three
  have hc : 0 < Real.cos 1 := by
    apply Real.cos_pos_of_mem_Ioo
    constructor <;> [linarith; linarith]
  have h := dnum_elementary_chain_rule ⟨1, ⟨1, 2⟩⟩ 2
  exact ⟨ne_of_gt hc, one_ne_zero, h.2.2.2.1 (ne_of_gt hc),
    h.2.2.2.2.2.2.2.1 one_ne_zero⟩

theorem vec3.add_eq (a b : vec3) : a + b = ⟨a.x + b.x, a.y + b.y, a.z + b.z⟩ := rfl

theorem vec3.sub_eq (a b : vec3) : a - b = ⟨a.x - b.x, a.y - b.y, a.z - b.z⟩ := rfl

theorem vec3.smul_eq (c : ℝ) (v : vec3) : c • v = ⟨c * v.x, c * v.y, c * v.z⟩ := rfl

theorem vec3.zero_def : (0 : vec3) = ⟨0, 0, 0⟩ := rfl

/-- C2: before the activation signal (`goon` still false) `Animate` is a pure
no-op: the returned `BodyState` and each of its fields — translation, linear
velocity, angular velocity, rotation angle, all parameters and the cached
transforms — coincide exactly with the input. -/
theorem inactive_step_noop (st : BodyState) (tstart tend : ℝ) :
    Animate false st tstart tend = st ∧
    (Animate false st tstart tend).translation = st.translation ∧
    (Animate false st tstart tend).v = st.v ∧
    (Animate false st tstart tend).w = st.w ∧
    (Animate false st tstart tend).rotationAngle = st.rotationAngle ∧
    (Animate false st tstart tend).m = st.m ∧
    (Animate false st tstart tend).g = st.g ∧
    (Animate false st tstart tend).ro = st.ro ∧
    (Animate false st tstart tend).s = st.s ∧
    (Animate false st tstart tend).D = st.D ∧
    (Animate false st tstart tend).l0 = st.l0 ∧
    (Animate false st tstart tend).kappa = st.kappa ∧
    (Animate false st tstart tend).scale = st.scale ∧
    (Animate false st tstart tend).rotationAxis = st.rotationAxis ∧
    (Animate false st tstart tend).M = st.M ∧
    (Animate false st tstart tend).Minv = st.Minv :=
  ⟨rfl, rfl, rfl, rfl, rfl, rfl, rfl, rfl, rfl, rfl, rfl, rfl, rfl, rfl, rfl, rfl⟩

/-- C10: an active `Animate` step leaves the mass, gravity, drag
coefficients, spring anchor, stiffness, natural length, scale and rotation
axis untouched; only translation, velocities, angle and the cached
transforms are written. -/
theorem active_step_preserves_params (st : BodyState) (tstart tend : ℝ) :
    (Animate true st tstart tend).m = st.m ∧
    (Animate true st tstart tend).g = st.g ∧
    (Animate true st tstart tend).ro = st.ro ∧
    (Animate true st tstart tend).kappa = st.kappa ∧
    (Animate true st tstart tend).s = st.s ∧
    (Animate true st tstart tend).D = st.D ∧
    (Animate true st tstart tend).l0 = st.l0 ∧
    (Animate true st tstart tend).scale = st.scale ∧
    (Animate true st tstart tend).rotationAxis = st.rotationAxis :=
  ⟨rfl, rfl, rfl, rfl, rfl, rfl, rfl, rfl, rfl⟩

/-- C1: the spring force used by every active integration step is the zero
vector whenever `|anchor - l| ≤ naturalLength` (boundary inclusive on the
non-activation side) and equals
`stiffness * (|anchor - l| - naturalLength) • (anchor - l)` whenever
`|anchor - l| > naturalLength`. -/
theorem spring_activation_threshold (st : BodyState) (l : vec3) :
    (vlength (st.s - l) ≤ st.l0 → springK st l = 0) ∧
    (vlength (st.s - l) > st.l0 →
      springK st l = (st.D * (vlength (st.s - l) - st.l0)) • (st.s - l)) := by
  constructor
  · intro h
    unfold springK
    rw [if_neg (not_lt.mpr h)]
  · intro h
    unfold springK
    rw [if_pos h]

/-- Witness for `spring_activation_threshold`: with `s - l = (0,3,0)` and
`l0 = 3` the boundary case gives the zero vector; with `s - l = (0,4,0)`,
`l0 = 3` and `D = 2` the active case gives `(0,8,0)`. -/
theorem spring_activation_threshold_check :
    vlength ((⟨0, 3, 0⟩ : vec3) - 0) ≤ 3 ∧
    springK ⟨1, 0, 0, 0, ⟨0, 3, 0⟩, 1, 3, 0, 0, ⟨1, 1, 1⟩, 0, ⟨0, 0, 1⟩, 0, id, id⟩ 0 = 0 ∧
    (3 : ℝ) < vlength ((⟨0, 4, 0⟩ : vec3) - 0) ∧
    springK ⟨1, 0, 0, 0, ⟨0, 4, 0⟩, 2, 3, 0, 0, ⟨1, 1, 1⟩, 0, ⟨0, 0, 1⟩, 0, id, id⟩ 0 =
      ⟨0, 8, 0⟩ := by
  have e1 : ((⟨0, 3, 0⟩ : vec3) - 0) = ⟨0, 3, 0⟩ := by
    rw [vec3.zero_def, vec3.sub_eq]; norm_num
  have e2 : ((⟨0, 4, 0⟩ : vec3) - 0) = ⟨0, 4, 0⟩ := by
    rw [vec3.zero_def, vec3.sub_eq]; norm_num
  have h3 : vlength ((⟨0, 3, 0⟩ : vec3) - 0) = 3 := by
    rw [e1]; unfold vlength dot
    rw [show ((⟨0, 3, 0⟩ : vec3).x * (⟨0, 3, 0⟩ : vec3).x +
        (⟨0, 3, 0⟩ : vec3).y * (⟨0, 3, 0⟩ : vec3).y +
        (⟨0, 3, 0⟩ : vec3).z * (⟨0, 3, 0⟩ : vec3).z : ℝ) = 3 ^ 2 by norm_num]
    exact Real.sqrt_sq (by norm_num)
  have h4 : vlength ((⟨0, 4, 0⟩ : vec3) - 0) = 4 := by
    rw [e2]; unfold vlength dot
    rw [show ((⟨0, 4, 0⟩ : vec3).x * (⟨0, 4, 0⟩ : vec3).x +
        (⟨0, 4, 0⟩ : vec3).y * (⟨0, 4, 0⟩ : vec3).y +
        (⟨0, 4, 0⟩ : vec3).z * (⟨0, 4, 0⟩ : vec3).z : ℝ) = 4 ^ 2 by norm_num]
    exact Real.sqrt_sq (by norm_num)
  refine ⟨by rw [h3], ?_, by rw [h4]; norm_num, ?_⟩
  · exact (spring_activation_threshold
      ⟨1, 0, 0, 0, ⟨0, 3, 0⟩, 1, 3, 0, 0, ⟨1, 1, 1⟩, 0, ⟨0, 0, 1⟩, 0, id, id⟩ 0).1
      (by rw [show (⟨1, 0, 0, 0, ⟨0, 3, 0⟩, 1, 3, 0, 0, ⟨1, 1, 1⟩, 0, ⟨0, 0, 1⟩, 0, id, id⟩ :
        BodyState).s = ⟨0, 3, 0⟩ from rfl, h3])
  · have h := (spring_activation_threshold
      ⟨1, 0, 0, 0, ⟨0, 4, 0⟩, 2, 3, 0, 0, ⟨1, 1, 1⟩, 0, ⟨0, 0, 1⟩, 0, id, id⟩ 0).2
      (by rw [show (⟨1, 0, 0, 0, ⟨0, 4, 0⟩, 2, 3, 0, 0, ⟨1, 1, 1⟩, 0, ⟨0, 0, 1⟩, 0, id, id⟩ :
        BodyState).s = ⟨0, 4, 0⟩ from rfl, h4]; norm_num)
    rw [h]
    show (2 * (vlength ((⟨0, 4, 0⟩ : vec3) - 0) - 3)) • ((⟨0, 4, 0⟩ : vec3) - 0) = _
    rw [h4, e2, vec3.smul_eq]
    norm_num

/-- C5: `GenVertexData` lifts `u` with derivative `(1,0)` and `v` with
derivative `(0,1)`, returns position `(X.f, Y.f, Z.f)`, texcoord `(u,v)`,
and the unnormalized cross product of the tangent vectors read off the
derivative components as the normal. -/
theorem genVertexData_spec (eval : Dnum2 → Dnum2 → Dnum2 × Dnum2 × Dnum2)
    (u v : ℝ) :
    (ParamSurface.GenVertexData eval u v).position =
      ⟨(eval ⟨u, ⟨1, 0⟩⟩ ⟨v, ⟨0, 1⟩⟩).1.f,
       (eval ⟨u, ⟨1, 0⟩⟩ ⟨v, ⟨0, 1⟩⟩).2.1.f,
       (eval ⟨u, ⟨1, 0⟩⟩ ⟨v, ⟨0, 1⟩⟩).2.2.f⟩ ∧
    (ParamSurface.GenVertexData eval u v).texcoord = ⟨u, v⟩ ∧
    (ParamSurface.GenVertexData eval u v).normal =
      cross
        ⟨(eval ⟨u, ⟨1, 0⟩⟩ ⟨v, ⟨0, 1⟩⟩).1.d.x,
         (eval ⟨u, ⟨1, 0⟩⟩ ⟨v, ⟨0, 1⟩⟩).2.1.d.x,
         (eval ⟨u, ⟨1, 0⟩⟩ ⟨v, ⟨0, 1⟩⟩).2.2.d.x⟩
        ⟨(eval ⟨u, ⟨1, 0⟩⟩ ⟨v, ⟨0, 1⟩⟩).1.d.y,
         (eval ⟨u, ⟨1, 0⟩⟩ ⟨v, ⟨0, 1⟩⟩).2.1.d.y,
         (eval ⟨u, ⟨1, 0⟩⟩ ⟨v, ⟨0, 1⟩⟩).2.2.d.y⟩ :=
  ⟨rfl, rfl, rfl⟩

/-- C8: every active step first advances `translation` with the velocity held
at the start of the step, and only afterwards updates `v` through momentum
from the net force `F = m*g + springForce - ro*v` evaluated at the start-of-
step velocity; in the scenario mass 1, gravity `(0,-5,0)`, zero initial
velocity, zero stiffness and `dt = 0.1`, one step yields velocity
`(0,-0.5,0)` and leaves the translation unchanged. -/
theorem linear_step_order (st : BodyState) (t0 t1 : ℝ) (hm : 0 < st.m) :
    (Animate true st t0 t1).translation = st.translation + (t1 - t0) • st.v ∧
    (Animate true st t0 t1).v =
      (st.m • st.v + (t1 - t0) •
        (st.m • st.g + springK st (attachPoint st) - st.ro • st.v)).divs st.m ∧
    (st.m = 1 → st.g = ⟨0, -5, 0⟩ → st.v = 0 → st.D = 0 → t1 - t0 = 0.1 →
      (Animate true st t0 t1).v = ⟨0, -0.5, 0⟩ ∧
      (Animate true st t0 t1).translation = st.translation) := by
  refine ⟨rfl, rfl, fun h1 h2 h3 h4 h5 => ⟨?_, ?_⟩⟩
  · have hK : springK st (attachPoint st) = 0 := by
      unfold springK
      split_ifs with h
      · rw [h4, vec3.zero_def]
        ext <;> simp [vec3.smul_eq]
      · rfl
    show (st.m • st.v + (t1 - t0) •
        (st.m • st.g + springK st (attachPoint st) - st.ro • st.v)).divs st.m = _
    rw [hK, h1, h2, h3, h5]
    ext <;>
      simp [vec3.divs, vec3.smul_eq, vec3.add_eq, vec3.sub_eq, vec3.zero_def] <;>
      norm_num
  · show st.translation + (t1 - t0) • st.v = st.translation
    rw [h3]
    ext <;> simp [vec3.smul_eq, vec3.add_eq, vec3.zero_def]

/-- Witness for `linear_step_order`: the source's `Body` defaults with the
spring stiffness set to zero, stepped over `[0, 0.1]`. -/
theorem linear_step_order_check :
    (0 : ℝ) < 1 ∧
    (Animate true ⟨1, ⟨0, -5, 0⟩, 0, 0.3, ⟨0, 5, 0⟩, 0, 3, 0, 0.3,
        ⟨1, 1.5, 0.5⟩, ⟨0, 5, 0⟩, ⟨0, 0, 1⟩, 0, id, id⟩ 0 0.1).v = ⟨0, -0.5, 0⟩ ∧
    (Animate true ⟨1, ⟨0, -5, 0⟩, 0, 0.3, ⟨0, 5, 0⟩, 0, 3, 0, 0.3,
        ⟨1, 1.5, 0.5⟩, ⟨0, 5, 0⟩, ⟨0, 0, 1⟩, 0, id, id⟩ 0 0.1).translation =
      (⟨1, ⟨0, -5, 0⟩, 0, 0.3, ⟨0, 5, 0⟩, 0, 3, 0, 0.3,
        ⟨1, 1.5, 0.5⟩, ⟨0, 5, 0⟩, ⟨0, 0, 1⟩, 0, id, id⟩ : BodyState).translation := by
  have h := linear_step_order
    ⟨1, ⟨0, -5, 0⟩, 0, 0.3, ⟨0, 5, 0⟩, 0, 3, 0, 0.3,
      ⟨1, 1.5, 0.5⟩, ⟨0, 5, 0⟩, ⟨0, 0, 1⟩, 0, id, id⟩ 0 0.1 (by norm_num)
  have hsc := h.2.2 rfl rfl rfl rfl (by norm_num)
  exact ⟨by norm_num, hsc.1, hsc.2⟩

/-- C9: every active step computes the moment of inertia
`I = m*(scale.x² + scale.y²)/12`, the torque
`τ = (l - translation) × springForce - κ*w` with the already-advanced
translation, the angular momentum `L = I*w + τ*dt` giving `w ← L/I`, and
then `rotationAngle ← rotationAngle - (rotationAxis ⬝ w)*dt` with the new
`w`, so only the axis component of the angular velocity affects the
orientation. -/
theorem angular_step_update (st : BodyState) (t0 t1 : ℝ) (hm : 0 < st.m)
    (hs : 0 < st.scale.x * st.scale.x + st.scale.y * st.scale.y) :
    (Animate true st t0 t1).w =
      (1 / (st.m * (st.scale.x * st.scale.x + st.scale.y * st.scale.y) / 12)) •
        ((st.m * (st.scale.x * st.scale.x + st.scale.y * st.scale.y) / 12) • st.w +
          (t1 - t0) •
            (cross (attachPoint st - (st.translation + (t1 - t0) • st.v))
                (springK st (attachPoint st)) -
              st.kappa • st.w)) ∧
    (Animate true st t0 t1).rotationAngle =
      st.rotationAngle -
        dot st.rotationAxis ((Animate true st t0 t1).w) * (t1 - t0) :=
  ⟨rfl, rfl⟩

/-- Witness for `angular_step_update` at the source's `Body` defaults
(mass 1, scale `(1, 1.5, 0.5)`), stepped over `[0, 1]`. -/
theorem angular_step_update_check :
    (0 : ℝ) < 1 ∧ (0 : ℝ) < 1 * 1 + 1.5 * 1.5 ∧
    (Animate true ⟨1, ⟨0, -5, 0⟩, ⟨1, 0, 0⟩, 0.3, ⟨0, 5, 0⟩, 1, 3, 0, 0.3,
        ⟨1, 1.5, 0.5⟩, ⟨0, 5, 0⟩, ⟨0, 0, 1⟩, 0, id, id⟩ 0 1).rotationAngle =
      (⟨1, ⟨0, -5, 0⟩, ⟨1, 0, 0⟩, 0.3, ⟨0, 5, 0⟩, 1, 3, 0, 0.3,
        ⟨1, 1.5, 0.5⟩, ⟨0, 5, 0⟩, ⟨0, 0, 1⟩, 0, id, id⟩ : BodyState).rotationAngle -
      dot (⟨1, ⟨0, -5, 0⟩, ⟨1, 0, 0⟩, 0.3, ⟨0, 5, 0⟩, 1, 3, 0, 0.3,
          ⟨1, 1.5, 0.5⟩, ⟨0, 5, 0⟩, ⟨0, 0, 1⟩, 0, id, id⟩ : BodyState).rotationAxis
        ((Animate true ⟨1, ⟨0, -5, 0⟩, ⟨1, 0, 0⟩, 0.3, ⟨0, 5, 0⟩, 1, 3, 0, 0.3,
          ⟨1, 1.5, 0.5⟩, ⟨0, 5, 0⟩, ⟨0, 0, 1⟩, 0, id, id⟩ 0 1).w) * (1 - 0) := by
  have h := angular_step_update
    ⟨1, ⟨0, -5, 0⟩, ⟨1, 0, 0⟩, 0.3, ⟨0, 5, 0⟩, 1, 3, 0, 0.3,
      ⟨1, 1.5, 0.5⟩, ⟨0, 5, 0⟩, ⟨0, 0, 1⟩, 0, id, id⟩ 0 1
    (by norm_num) (by norm_num)
  exact ⟨by norm_num, by norm_num, h.2⟩

theorem flatMap_range_length {α : Type} (g : ℕ → List α) (L : ℕ)
    (h : ∀ k, (g k).length = L) :
    ∀ N, ((List.range N).flatMap g).length = N * L := by
  intro N
  induction N with
  | zero => simp
  | succ n ih =>
    rw [List.range_succ n, List.flatMap_append, List.length_append, ih, Nat.succ_mul]
    simp [h n]

theorem flatMap_range_get {α : Type} (g : ℕ → List α) (L : ℕ)
    (h : ∀ k, (g k).length = L) :
    ∀ N i r, i < N → r < L →
      ((List.range N).flatMap g)[i * L + r]? = (g i)[r]? := by
  intro N
  induction N with
  | zero => intro i r hi _; exact absurd hi (Nat.not_lt_zero i)
  | succ n ih =>
    intro i r hi hr
    rw [List.range_succ n, List.flatMap_append, List.getElem?_append]
    by_cases hin : i < n
    · have hlt : i * L + r < ((List.range n).flatMap g).length := by
        rw [flatMap_range_length g L h n]
        have h2 : (i + 1) * L ≤ n * L := Nat.mul_le_mul_right L hin
        have h1 : i * L + r < (i + 1) * L := by rw [Nat.succ_mul]; omega
        omega
      rw [if_pos hlt]
      exact ih i r hin hr
    · have hieq : i = n := by omega
      rw [hieq]
      have hne : ¬ (n * L + r < ((List.range n).flatMap g).length) := by
        rw [flatMap_range_length g L h n]; omega
      rw [if_neg hne, flatMap_range_length g L h n]
      have e : n * L + r - n * L = r := by omega
      rw [e]
      simp

/-- C6: `create` builds `N` strips of `2*(M+1)` vertices: the buffer has
length `N * (2*(M+1))`, the vertex at offset `2*j` of strip `i` samples
`(u, v) = (j/M, i/N)` and the one at offset `2*j+1` samples
`(j/M, (i+1)/N)`, in that order, and the strip boundary value `v = (i+1)/N`
appears both as the end of strip `i` and as the start of strip `i+1`. -/
theorem tessellation_strips (eval : Dnum2 → Dnum2 → Dnum2 × Dnum2 × Dnum2)
    (N M : ℕ) (hN : 0 < N) (hM : 0 < M) :
    (ParamSurface.create eval N M).length = N * (2 * (M + 1)) ∧
    (∀ i j, i < N → j ≤ M →
      (ParamSurface.create eval N M)[i * (2 * (M + 1)) + 2 * j]? =
        some (ParamSurface.GenVertexData eval ((j : ℝ) / M) ((i : ℝ) / N)) ∧
      (ParamSurface.create eval N M)[i * (2 * (M + 1)) + 2 * j + 1]? =
        some (ParamSurface.GenVertexData eval ((j : ℝ) / M) (((i : ℝ) + 1) / N))) ∧
    (∀ i j, i + 1 < N → j ≤ M →
      (ParamSurface.create eval N M)[i * (2 * (M + 1)) + 2 * j + 1]? =
        (ParamSurface.create eval N M)[(i + 1) * (2 * (M + 1)) + 2 * j]?) := by
  have hblock : ∀ i j : ℕ,
      ([ParamSurface.GenVertexData eval ((j : ℝ) / M) ((i : ℝ) / N),
        ParamSurface.GenVertexData eval ((j : ℝ) / M) (((i : ℝ) + 1) / N)] :
        List VertexData).length = 2 := fun _ _ => rfl
  have hstrip : ∀ i : ℕ,
      ((List.range (M + 1)).flatMap (fun j =>
        [ParamSurface.GenVertexData eval ((j : ℝ) / M) ((i : ℝ) / N),
         ParamSurface.GenVertexData eval ((j : ℝ) / M) (((i : ℝ) + 1) / N)])).length
        = 2 * (M + 1) := by
    intro i
    rw [flatMap_range_length _ 2 (hblock i) (M + 1), Nat.mul_comm]
  have hget : ∀ i j r, i < N → j ≤ M → r < 2 →
      (ParamSurface.create eval N M)[i * (2 * (M + 1)) + (j * 2 + r)]? =
        ([ParamSurface.GenVertexData eval ((j : ℝ) / M) ((i : ℝ) / N),
          ParamSurface.GenVertexData eval ((j : ℝ) / M) (((i : ℝ) + 1) / N)] :
          List VertexData)[r]? := by
    intro i j r hi hj hr
    have h1 := flatMap_range_get _ (2 * (M + 1)) hstrip N i (j * 2 + r) hi (by omega)
    have h2 := flatMap_range_get _ 2 (hblock i) (M + 1) j r (by omega) hr
    exact h1.trans h2
  refine ⟨flatMap_range_length _ (2 * (M + 1)) hstrip N,
    fun i j hi hj => ⟨?_, ?_⟩, fun i j hi hj => ?_⟩
  · rw [show i * (2 * (M + 1)) + 2 * j = i * (2 * (M + 1)) + (j * 2 + 0) by ring]
    exact (hget i j 0 hi hj (by omega)).trans rfl
  · rw [show i * (2 * (M + 1)) + 2 * j + 1 = i * (2 * (M + 1)) + (j * 2 + 1) by ring]
    exact (hget i j 1 hi hj (by omega)).trans rfl
  · have h1 := (hget i j 1 (by omega) hj (by omega)).trans rfl
    have h2 := (hget (i + 1) j 0 hi hj (by omega)).trans rfl
    rw [show i * (2 * (M + 1)) + 2 * j + 1 = i * (2 * (M + 1)) + (j * 2 + 1) by ring,
      h1,
      show (i + 1) * (2 * (M + 1)) + 2 * j = (i + 1) * (2 * (M + 1)) + (j * 2 + 0) by ring,
      h2]
    have e : ((i : ℝ) + 1) = ((i + 1 : ℕ) : ℝ) := by push_cast; ring
    rw [e]
    rfl

/-- Witness for `tessellation_strips`: a 1×1 grid over the surface
`(U, V) ↦ (U, V, U*V)` has one strip of four vertices whose first vertex
samples `(0/1, 0/1)`. -/
theorem tessellation_strips_check :
    (0 : ℕ) < 1 ∧
    (ParamSurface.create (fun U V => (U, V, U * V)) 1 1).length = 1 * (2 * (1 + 1)) ∧
    (ParamSurface.create (fun U V => (U, V, U * V)) 1 1)[0 * (2 * (1 + 1)) + 2 * 0]? =
      some (ParamSurface.GenVertexData (fun U V => (U, V, U * V))
        (((0 : ℕ) : ℝ) / ((1 : ℕ) : ℝ)) (((0 : ℕ) : ℝ) / ((1 : ℕ) : ℝ))) := by
  have h := tessellation_strips (fun U V => (U, V, U * V)) 1 1 (by norm_num) (by norm_num)
  exact ⟨by norm_num, h.1, (h.2.1 0 0 (by norm_num) (by norm_num)).1⟩

theorem Dnum2.add_f (a b : Dnum2) : (a + b).f = a.f + b.f := rfl

theorem Dnum2.sub_f (a b : Dnum2) : (a - b).f = a.f - b.f := rfl

theorem Dnum2.mul_f (a b : Dnum2) : (a * b).f = a.f * b.f := rfl

theorem Dnum2.Cos_f (g : Dnum2) : (Dnum2.Cos g).f = Real.cos g.f := rfl

theorem dconst_f (a : ℝ) : (dconst a).f = a := rfl

/-- C7: the terrain surface returns `X = u - 0.5`, `Z = v - 0.5`, and
`Y = Σ_{i,j<3} A[i,j] * cos(2π*(i*(u-0.5) + j*(v-0.5) + B[i,j]))` where the
amplitude at `(0,0)` is forced to zero and otherwise `A[i,j] = 1/√(i²+j²)`,
with the phase table fixed at construction time. -/
theorem noise_surface_formula (B : ℕ → ℕ → ℝ) (U V : Dnum2) :
    (Noise.eval B U V).1.f = U.f - 0.5 ∧
    (Noise.eval B U V).2.2.f = V.f - 0.5 ∧
    (Noise.eval B U V).2.1.f =
      ∑ i ∈ Finset.range 3, ∑ j ∈ Finset.range 3,
        (if i = 0 ∧ j = 0 then 0
         else 1 / Real.sqrt ((i : ℝ) ^ 2 + (j : ℝ) ^ 2)) *
          Real.cos (2 * Real.pi *
            ((i : ℝ) * (U.f - 0.5) + (j : ℝ) * (V.f - 0.5) + Bcoef B i j)) := by
  refine ⟨rfl, rfl, ?_⟩
  simp only [Noise.eval]
  rw [show List.range 3 = [0, 1, 2] from rfl]
  simp only [List.foldl_cons, List.foldl_nil]
  simp [Dnum2.add_f, Dnum2.mul_f, Dnum2.sub_f, Dnum2.Cos_f, dconst_f, Acoef, Bcoef,
    Finset.sum_range_succ]
  ring_nf
